import Mathlib

/-!
Verification of the tokinfo prompt-enhancement CLI (Go) against its
natural-language specification.  The Go sources are shallowly embedded:
pure functions become Lean functions, file reads and the two remote
model calls become explicit oracles passed in as function arguments,
and the `main` orchestration becomes a pure function from those oracles
to a run result (stdout transcript, file writes, stage-2 invocations,
and the final outcome).
-/

/-! ## String helpers (Go standard library fragments used by the sources)

Notes on fidelity: the Go functions `strings.ToLower`, `unicode.IsSpace`
and `strings.TrimSpace` are defined over all of Unicode; here only the
ASCII / Latin-1 behaviour is modelled, which is extensionally adequate
for every comparison the program performs (the file extensions compared
are ASCII, and no claim depends on exotic whitespace).
-/

/-- Model of `strings.ToLower` restricted to ASCII: `Char.toLower` maps
only the letters A..Z. -/
def asciiToLower (s : String) : String :=
  String.mk (s.data.map Char.toLower)

/-- Model of `unicode.IsSpace` on the Latin-1 range: space, tab, newline,
vertical tab, form feed, carriage return, next line, no-break space. -/
def goIsSpace (c : Char) : Bool :=
  c = ' ' || c = '\t' || c = '\n' || c = '\x0b' || c = '\x0c' || c = '\r' ||
  c = '\x85' || c = '\xa0'

/-- Model of `strings.TrimSpace`: drop whitespace from both ends. -/
def trimSpace (s : String) : String :=
  String.mk (((s.data.dropWhile goIsSpace).reverse.dropWhile goIsSpace).reverse)

/-- Helper for `filepathExt`: walks the path characters in reverse order,
accumulating the characters already passed (which are exactly the
characters after the current position, in original order).  Stops at a
path separator with no extension, or at a dot, returning the suffix that
starts at that dot. -/
def filepathExtAux : List Char → List Char → String
  | [], _ => ""
  | c :: rest, seen =>
    if c = '/' then ""
    else if c = '.' then String.mk (c :: seen)
    else filepathExtAux rest (c :: seen)

/-- Model of Go `path/filepath.Ext` (on a slash-separated platform): the
suffix beginning at the final dot in the final path element, empty when
that element has no dot. -/
def filepathExt (path : String) : String :=
  filepathExtAux path.data.reverse []

/-! ## Package config (src/internal/config/config.go) -/

/-- Embedding of `config.Technique`: one prompt engineering technique. -/
structure Technique where
  Name : String
  Summarized : String
  Complete : String
deriving DecidableEq, Repr

/-- Embedding of `config.Guidelines`: introduction plus technique list. -/
structure Guidelines where
  Introduction : String
  Techniques : List Technique
deriving DecidableEq, Repr

/-- JSON values, as produced by the syntax layer of Go `encoding/json`.
Numbers are modelled as integers; floating point literals play no role
in any claim. -/
inductive JValue where
  | null
  | bool (b : Bool)
  | num (n : Int)
  | str (s : String)
  | arr (elts : List JValue)
  | obj (fields : List (String × JValue))

/-- The raw bytes of a JSON document, abstracted by the outcome of the
syntax check Go `encoding/json.Unmarshal` performs first: either the
bytes are not well-formed JSON, or they denote a `JValue`. -/
inductive JsonDoc where
  | malformed
  | value (v : JValue)

/-- ASCII-case-insensitive string equality: model of the case-insensitive
JSON key matching of `encoding/json` (Go uses Unicode simple folding;
ASCII folding is adequate for the keys appearing in this program). -/
def asciiFoldEq (a b : String) : Bool :=
  asciiToLower a = asciiToLower b

/-- Decoding a JSON value into a Go `string`: a JSON string yields itself,
JSON `null` leaves the zero value `""` and is not an error (as in Go),
anything else is an `UnmarshalTypeError`. -/
def decodeString : JValue → Except String String
  | .str s => .ok s
  | .null => .ok ""
  | _ => .error "cannot unmarshal value into Go string"

/-- One step of the `config.Technique` unmarshalling fold: assign the
struct field selected by the JSON key, leave the accumulator unchanged
for unknown keys. -/
def decodeTechniqueField (t : Technique) (kv : String × JValue) :
    Except String Technique :=
  if asciiFoldEq kv.1 "name" then
    (decodeString kv.2).map fun s => { t with Name := s }
  else if asciiFoldEq kv.1 "summarized" then
    (decodeString kv.2).map fun s => { t with Summarized := s }
  else if asciiFoldEq kv.1 "complete" then
    (decodeString kv.2).map fun s => { t with Complete := s }
  else .ok t

/-- Decoding one JSON value into a `config.Technique` struct: an object
whose recognized keys set the corresponding fields (unknown keys are
ignored, missing fields keep the zero value `""`), or `null`. -/
def decodeTechnique (v : JValue) : Except String Technique :=
  match v with
  | .null => .ok ⟨"", "", ""⟩
  | .obj fields => fields.foldlM decodeTechniqueField ⟨"", "", ""⟩
  | _ => .error "cannot unmarshal value into Go struct Technique"

/-- Decoding a JSON value into `[]Technique`. -/
def decodeTechniqueList : JValue → Except String (List Technique)
  | .null => .ok []
  | .arr elts => elts.mapM decodeTechnique
  | _ => .error "cannot unmarshal value into Go slice of Technique"

/-- Decoding a JSON value into a `config.Guidelines` struct. -/
def decodeGuidelines (v : JValue) : Except String Guidelines :=
  match v with
  | .null => .ok ⟨"", []⟩
  | .obj fields =>
    fields.foldlM
      (fun (g : Guidelines) (kv : String × JValue) =>
        if asciiFoldEq kv.1 "introduction" then
          (decodeString kv.2).map fun s => { g with Introduction := s }
        else if asciiFoldEq kv.1 "techniques" then
          (decodeTechniqueList kv.2).map fun ts => { g with Techniques := ts }
        else .ok g)
      ⟨"", []⟩
  | _ => .error "cannot unmarshal value into Go struct Guidelines"

/-- Embedding of `config.LoadGuidelines`.  The file system is an oracle
from paths to `none` (read failure) or the JSON-syntax outcome of the
file bytes.  Mirrors the source: read, unmarshal, then the single
validation `Introduction == "" or len(Techniques) == 0`. -/
def LoadGuidelines (gfs : String → Option JsonDoc) (filePath : String) :
    Except String Guidelines :=
  match gfs filePath with
  | none => .error ("failed to read guidelines file \x27" ++ filePath ++ "\x27")
  | some .malformed =>
    .error ("failed to unmarshal guidelines JSON from \x27" ++ filePath ++ "\x27")
  | some (.value v) =>
    match decodeGuidelines v with
    | .error e =>
      .error ("failed to unmarshal guidelines JSON from \x27" ++ filePath ++ "\x27: " ++ e)
    | .ok guidelines =>
      if guidelines.Introduction = "" || guidelines.Techniques.length = 0 then
        .error ("guidelines file \x27" ++ filePath ++ "\x27 is missing introduction or techniques")
      else
        .ok guidelines

/-- Embedding of `config.GetTechniqueByName`: linear scan for the first
technique whose name equals the query exactly. -/
def GetTechniqueByName : List Technique → String → Option Technique
  | [], _ => none
  | t :: ts, name => if t.Name = name then some t else GetTechniqueByName ts name

/-! ## Package prompt (src/internal/prompt/handler.go) -/

/-- The extension test of `prompt.ReadInput`: the lower-cased
`filepath.Ext` of the input equals `.txt` or `.md`. -/
def recognizedDocExt (s : String) : Bool :=
  asciiToLower (filepathExt s) = ".txt" || asciiToLower (filepathExt s) = ".md"

/-- Embedding of `prompt.ReadInput`.  The file system is an oracle from
paths to `none` (read failure) or the file content.  The `verbose` flag
only controls a progress print in the source and has no effect on the
returned value. -/
def ReadInput (fs : String → Option String) (inputPathOrString : String)
    (verbose : Bool) : Except String String :=
  if recognizedDocExt inputPathOrString then
    match fs inputPathOrString with
    | some content => .ok content
    | none =>
      .error ("failed to read prompt file \x27" ++ inputPathOrString ++ "\x27")
  else if inputPathOrString = "" then
    .error "prompt input cannot be empty"
  else
    .ok inputPathOrString

/-- Output effects of one emission: text appended to standard output and
the list of file writes performed (path, content). -/
structure OutputEffect where
  stdout : String
  fileWrites : List (String × String)
deriving DecidableEq, Repr

/-- Embedding of `prompt.HandleOutput`: empty destination prints the
content with a trailing newline to standard output (`fmt.Println`),
otherwise the content bytes are written verbatim to the destination file
(`os.WriteFile`, creating or overwriting).  OS-level write failure is
outside the model. -/
def HandleOutput (content : String) (outputPath : String) (verbose : Bool) :
    OutputEffect :=
  if outputPath = "" then
    ⟨content ++ "\n", []⟩
  else
    ⟨"", [(outputPath, content)]⟩

/-! ## Package gemini (src/internal/gemini/client.go)

The remote inference service is an oracle: it receives the model name,
the generation config (carrying the structured-output contract), and the
request prompt.  For the stage-1 call its textual response is abstracted
by its JSON-syntax outcome (`JsonDoc`), because the source immediately
unmarshals it; the stage-2 call returns free text.
-/

/-- The fragment of `genai.Schema` the source constructs: a type tag plus
either object properties or array item schema. -/
inductive GSchema where
  | string
  | object (properties : List (String × GSchema))
  | array (items : GSchema)

/-- The fragment of `genai.GenerateContentConfig` the source sets. -/
structure GenerateContentConfig where
  ResponseMIMEType : String
  ResponseSchema : Option GSchema

/-- Embedding of the `analyzeConfig` built in `gemini.NewClient`: JSON
output constrained to an object with a string `ChoseTechnique` and a
`ClarifyingQuestions` array whose items are strings. -/
def analyzeConfig : GenerateContentConfig :=
  ⟨"application/json",
   some (.object
     [("ChoseTechnique", .string),
      ("ClarifyingQuestions", .array .string)])⟩

/-- Embedding of the `refineConfig` built in `gemini.NewClient`: empty. -/
def refineConfig : GenerateContentConfig :=
  ⟨"", none⟩

/-- Embedding of `gemini.AnalysisResult`: the Go struct the stage-1
response is unmarshalled into.  `ClarifyingQuestions` is `[]string`. -/
structure AnalysisResult where
  ChosenTechniqueName : String
  ClarifyingQuestions : List String
deriving DecidableEq, Repr

/-- Decoding a JSON value into `[]string`. -/
def decodeStringList : JValue → Except String (List String)
  | .null => .ok []
  | .arr elts => elts.mapM decodeString
  | _ => .error "cannot unmarshal value into Go slice of string"

/-- Decoding a JSON value into the `gemini.AnalysisResult` struct: JSON
keys `ChoseTechnique` (string) and `ClarifyingQuestions` (array of
strings), per the struct tags in the source. -/
def decodeAnalysisResult (v : JValue) : Except String AnalysisResult :=
  match v with
  | .null => .ok ⟨"", []⟩
  | .obj fields =>
    fields.foldlM
      (fun (r : AnalysisResult) (kv : String × JValue) =>
        if asciiFoldEq kv.1 "ChoseTechnique" then
          (decodeString kv.2).map fun s => { r with ChosenTechniqueName := s }
        else if asciiFoldEq kv.1 "ClarifyingQuestions" then
          (decodeStringList kv.2).map fun qs => { r with ClarifyingQuestions := qs }
        else .ok r)
      ⟨"", []⟩
  | _ => .error "cannot unmarshal value into Go struct AnalysisResult"

/-- The stage-1 instruction text built by `gemini.AnalyzePrompt` via
`fmt.Sprintf`; `guide` is the first verb argument
(`intro+"\n\n"+summarizedTechniques`), `userPrompt` the second. -/
def buildAnalyzePrompt (guide userPrompt : String) : String :=
  "Prompt Engineering Guide:\n" ++ guide ++
  "\n\nUser’s Raw Prompt:\n" ++ userPrompt ++
  "\n\nTask:\nUsing only the techniques described in the Prompt Engineering Guide, analyze the User’s Raw Prompt and decide:\n\n" ++
  "1. Which single prompt-engineering technique you will apply.\n" ++
  "2. What clarifying questions (if any) you need to ask before rewriting it — and for each question, provide an example of an appropriate answer.\n\n" ++
  "Output:\nRespond with exactly this JSON schema—no extra keys or prose:\n\n" ++
  "\x7b\n\t \"type\": \"object\",\n\t \"properties\": \x7b\n" ++
  "\t   \"ChoseTechnique\": \x7b\n\t     \"type\": \"string\",\n\t     \"description\": \"The name of the chosen technique from the Guide.\"\n\t   \x7d,\n" ++
  "\t   \"ClarifyingQuestions\": \x7b\n\t     \"type\": \"array\",\n\t     \"items\": \x7b\n\t       \"type\": \"object\",\n\t       \"properties\": \x7b\n" ++
  "\t         \"question\": \x7b\n\t           \"type\": \"string\",\n\t           \"description\": \"The clarifying question to ask the user.\"\n\t         \x7d,\n" ++
  "\t         \"exampleAnswer\": \x7b\n\t           \"type\": \"string\",\n\t           \"description\": \"A sample answer that the user might give.\"\n\t         \x7d\n" ++
  "\t       \x7d,\n\t       \"required\": [\"question\", \"exampleAnswer\"]\n\t     \x7d\n\t   \x7d\n\t \x7d,\n" ++
  "\t \"required\": [\"ChoseTechnique\", \"ClarifyingQuestions\"]\n\x7d"

/-- Embedding of `gemini.AnalyzePrompt`: build the instruction, call the
service with `analyzeConfig`, then unmarshal the response text into
`AnalysisResult`; a generation failure or an unmarshal failure is
returned as an error. -/
def AnalyzePrompt
    (gen : String → GenerateContentConfig → String → Except String JsonDoc)
    (intro summarizedTechniques userPrompt : String) :
    Except String AnalysisResult :=
  let prompt := buildAnalyzePrompt (intro ++ "\n\n" ++ summarizedTechniques) userPrompt
  match gen "gemini-2.0-flash" analyzeConfig prompt with
  | .error e => .error ("failed to generate content for analysis: " ++ e)
  | .ok .malformed => .error "failed to unmarshal analysis response JSON"
  | .ok (.value v) =>
    match decodeAnalysisResult v with
    | .error e => .error ("failed to unmarshal analysis response JSON: " ++ e)
    | .ok result => .ok result

/-! ## Go maps and their fmt rendering

A Go `map[string]string` is a finite map; the program builds one by
assignment (`userAnswers[q] = a`, overwriting on an existing key) and
consumes it only through `fmt.Sprintf` with verb `%v`, which prints the
entries in ascending key order (`map[k1:v1 k2:v2]`).  The map is
represented by its list of bindings; the order of that list models the
unspecified runtime iteration order and is canonicalized by the sort in
`goFmtMap`, exactly as the fmt package does.
-/

/-- Lookup of a key among the bindings (keys are pairwise distinct). -/
def goMapLookup : List (String × String) → String → Option String
  | [], _ => none
  | kv :: rest, k => if kv.1 = k then some kv.2 else goMapLookup rest k

/-- Go map assignment: overwrite the binding when the key is present,
otherwise add a new binding. -/
def goMapInsert : List (String × String) → String → String → List (String × String)
  | [], k, v => [(k, v)]
  | kv :: rest, k, v =>
    if kv.1 = k then (kv.1, v) :: rest else kv :: goMapInsert rest k v

/-- Order of map bindings by key, as used by the fmt package when it
sorts map keys for printing. -/
def pairKeyLe (a b : String × String) : Prop :=
  a.1 ≤ b.1

instance : DecidableRel pairKeyLe :=
  fun a b => inferInstanceAs (Decidable (a.1 ≤ b.1))

/-- Model of `fmt.Sprintf("%v", m)` for a `map[string]string`: the
bindings in ascending key order, rendered `map[k1:v1 k2:v2]`. -/
def goFmtMap (m : List (String × String)) : String :=
  "map[" ++
  String.intercalate " " ((List.insertionSort pairKeyLe m).map fun kv => kv.1 ++ ":" ++ kv.2) ++
  "]"

/-- The stage-2 instruction text built by `gemini.RefinePrompt` via
`fmt.Sprintf`; `answersFmt` is the `%v` rendering of the answer map. -/
def buildRefinePrompt (intro completeTechniqueDesc userPrompt answersFmt : String) : String :=
  intro ++ "  (intro)\n" ++
  completeTechniqueDesc ++ " (completeTechniqueDesc)\n" ++
  userPrompt ++ "  (userprompt)\n" ++
  answersFmt ++ " (answers)\n\n" ++
  "You are a prompt enhancement tool that rigorously applies the provided engineering guidelines. Refine the user\x27s original \"\x7bprompt\x7d\" by:\n" ++
  "1. **Integrating** the context from:\n\t  - \x7bintro\x7d (core principles)\n\t  - \x7btechnique description\x7d (methodology)\n\t  - \x7bextra information\x7d (additional constraints/requirements)\n" ++
  "2. **Enhancing** specificity, structure, and clarity while **preserving every element** of the original prompt.\n" ++
  "3. **Formatting** the output as a standalone, optimized prompt in English with no explanations, headers, or markdown.\n\n" ++
  "**Constraints:**\n- Do **not** add, remove, or reinterpret concepts from \"\x7bprompt\x7d\".\n- Use **only** the context from \x7bintro\x7d, \x7btechnique description\x7d, and \x7bextra information\x7d.\n- Output **exclusively** the final enhanced prompt.\n\n" ++
  "**Example Transformation:**\nOriginal: \"Explain blockchain\"\nEnhanced: \"Describe blockchain technology in 3 steps using a baking analogy for non-technical audiences. Highlight decentralization and security. Avoid cryptocurrency mentions.\""

/-- Embedding of `gemini.RefinePrompt`: build the instruction embedding
the `%v`-rendered answer map, call the service with `refineConfig`, and
return the raw response text. -/
def RefinePrompt
    (gen : String → GenerateContentConfig → String → Except String String)
    (intro completeTechniqueDesc userPrompt : String)
    (answers : List (String × String)) : Except String String :=
  let prompt := buildRefinePrompt intro completeTechniqueDesc userPrompt (goFmtMap answers)
  match gen "gemini-2.0-flash" refineConfig prompt with
  | .error e => .error ("failed to generate content for refinement: " ++ e)
  | .ok refinedPrompt => .ok refinedPrompt

/-! ## The main orchestration (src/main.go)

The run is a pure function of a `World` bundling the oracles for the
file system, the environment, the interactive input channel and the two
remote calls.  Verbose diagnostics printed by the library helpers are
not modelled (they carry no results); the prints issued by `main`
itself, the per-question interactive prompts, the final
`fmt.Println(enhancedPrompt)` and the print of the deferred `Close` are
part of the stdout transcript.  `log.Fatal` and `log.Fatalf` write to
the diagnostic stream and exit without running deferred calls; they are
modelled by the `outcome` being an error.
-/

/-- Result of the interactive answer-collection loop: the bindings of
`userAnswers`, the text echoed to standard output by the per-question
prompts, and the number of warnings logged for failed reads. -/
structure AnswerCollection where
  bindings : List (String × String)
  stdoutEcho : String
  warnings : Nat
deriving DecidableEq, Repr

/-- Embedding of the answer-collection loop in `main`: for the question
at position `i` the reader result is `stdin i`; a read failure logs a
warning and skips the question, a successful read stores the
whitespace-trimmed line under the verbatim question text. -/
def collectAnswersAux (stdin : Nat → Except Unit String) :
    List String → Nat → List (String × String) → AnswerCollection
  | [], _, m => ⟨m, "", 0⟩
  | q :: qs, i, m =>
    match stdin i with
    | .error _ =>
      let rest := collectAnswersAux stdin qs (i + 1) m
      ⟨rest.bindings, ("- " ++ q ++ ": ") ++ rest.stdoutEcho, rest.warnings + 1⟩
    | .ok answer =>
      let rest := collectAnswersAux stdin qs (i + 1) (goMapInsert m q (trimSpace answer))
      ⟨rest.bindings, ("- " ++ q ++ ": ") ++ rest.stdoutEcho, rest.warnings⟩

/-- The answer-collection loop started on an empty `userAnswers` map. -/
def collectAnswers (stdin : Nat → Except Unit String) (questions : List String) :
    AnswerCollection :=
  collectAnswersAux stdin questions 0 []

/-- The catalog summary built in `main`:
`"- %s: %s\n"` per technique, concatenated in order. -/
def summarizeTechniques (ts : List Technique) : String :=
  String.join (ts.map fun tech => "- " ++ tech.Name ++ ": " ++ tech.Summarized ++ "\n")

/-- The oracles one run of the program consults. -/
structure World where
  gfs : String → Option JsonDoc
  fs : String → Option String
  apiKey : String
  clientInitOk : Bool
  stdin : Nat → Except Unit String
  analyzeGen : String → GenerateContentConfig → String → Except String JsonDoc
  refineGen : String → GenerateContentConfig → String → Except String String

deriving instance DecidableEq for Except

/-- Observable result of one run: the standard-output transcript, the
file writes performed, the stage-2 invocations (each recorded as the
request prompt delivered to the remote service), and the outcome (fatal
diagnostic or the enhanced prompt). -/
structure RunResult where
  stdout : String
  fileWrites : List (String × String)
  refineCalls : List String
  outcome : Except String String
deriving DecidableEq, Repr

/-- The tail of `main` from the user-interaction step on: collect the
answers, resolve the chosen technique (fatal when absent), run stage 2,
and print the enhanced prompt to standard output.  `mapOrder` models the
unspecified iteration order in which the Go runtime would present the
map bindings (a permutation); no file is ever written.  -/
def mainAfterAnalyze (w : World) (outputPath : String) (verbose : Bool)
    (mapOrder : List (String × String) → List (String × String))
    (outAcc : String) (guidelines : Guidelines) (userPrompt : String)
    (analysisResult : AnalysisResult) : RunResult :=
  let ca := collectAnswers w.stdin analysisResult.ClarifyingQuestions
  let out :=
    outAcc ++
    (if analysisResult.ClarifyingQuestions.length > 0 then
      (if verbose then "\nPlease answer the following questions to help refine the prompt:\n" else "")
      ++ ca.stdoutEcho
      ++ (if verbose then "Thank you for your answers.\n" else "")
    else
      (if verbose then "No clarifying questions needed based on the analysis.\n" else ""))
  match GetTechniqueByName guidelines.Techniques analysisResult.ChosenTechniqueName with
  | none =>
    ⟨out, [], [],
     .error ("Error: Chosen technique \x27" ++ analysisResult.ChosenTechniqueName ++
             "\x27 not found in guidelines.")⟩
  | some chosenTechnique =>
    let answersRep := mapOrder ca.bindings
    let call : String :=
      buildRefinePrompt guidelines.Introduction chosenTechnique.Complete userPrompt
        (goFmtMap answersRep)
    match RefinePrompt w.refineGen guidelines.Introduction chosenTechnique.Complete
        userPrompt answersRep with
    | .error e =>
      ⟨out, [], [call], .error ("Error during Stage 2 Gemini call: " ++ e)⟩
    | .ok enhancedPrompt =>
      ⟨out ++
        (if verbose then "Stage 2 refinement complete.\n" else "") ++
        (if verbose then "\nExecuting enhanced prompt with Gemini...\n" else "") ++
        enhancedPrompt ++ "\n" ++
        (if verbose ∧ outputPath ≠ "" then
          "Enhanced prompt successfully saved to " ++ outputPath ++ "\n"
        else "") ++
        "Gemini client resources released (placeholder).\n",
       [], [call], .ok enhancedPrompt⟩

/-- Embedding of `main`: flag check, guideline loading, input reading,
credential check, client initialization, stage 1, then the tail. -/
def mainRun (w : World) (promptInput outputPath : String) (verbose : Bool)
    (mapOrder : List (String × String) → List (String × String)) : RunResult :=
  if promptInput = "" then
    ⟨"", [], [], .error "Error: -p flag (prompt input) is required."⟩
  else
    let out0 := if verbose then "Starting Tokinfo: Prompt Enhancement Tool...\n" else ""
    match LoadGuidelines w.gfs "guidelines.json" with
    | .error e => ⟨out0, [], [], .error ("Error loading guidelines: " ++ e)⟩
    | .ok guidelines =>
      let out1 := out0 ++ (if verbose then "Guidelines loaded.\n" else "")
      match ReadInput w.fs promptInput verbose with
      | .error e => ⟨out1, [], [], .error ("Error reading prompt input: " ++ e)⟩
      | .ok userPrompt =>
        let out2 := out1 ++ (if verbose then "User prompt read successfully.\n" else "")
        if w.apiKey = "" then
          ⟨out2, [], [], .error "Error: GEMINI_API_KEY environment variable not set."⟩
        else if w.clientInitOk = false then
          ⟨out2, [], [], .error "Error initializing Gemini client."⟩
        else
          let out3 := out2 ++ (if verbose then "Gemini client initialized.\n" else "")
          match AnalyzePrompt w.analyzeGen guidelines.Introduction
              (summarizeTechniques guidelines.Techniques) userPrompt with
          | .error e => ⟨out3, [], [], .error ("Error during Stage 1 Gemini call: " ++ e)⟩
          | .ok analysisResult =>
            let out4 := out3 ++
              (if verbose then
                "Stage 1 analysis complete. Chosen technique: " ++
                analysisResult.ChosenTechniqueName ++ "\n"
              else "")
            mainAfterAnalyze w outputPath verbose mapOrder out4 guidelines userPrompt
              analysisResult

/-! ## Supporting lemmas -/

/-- The linear scan of `GetTechniqueByName` is `List.find?` with the
exact-name predicate. -/
theorem getTechniqueByName_eq_find (ts : List Technique) (n : String) :
    GetTechniqueByName ts n = ts.find? fun t => decide (t.Name = n) := by
  induction ts with
  | nil => rfl
  | cons t ts ih =>
    by_cases h : t.Name = n
    · simp [GetTechniqueByName, List.find?_cons, h]
    · simp [GetTechniqueByName, List.find?_cons, h, ih]

/-! ## Claim C8 -/

/-- C8 (confirmed).  `GetTechniqueByName` performs an exact
(case-sensitive, plain string equality) match: it returns `some t`
precisely when the list splits as `before ++ t :: after` with `t` the
first element whose name equals the query (every earlier element has a
different name, so with duplicate names the first match wins), and it
returns `none` precisely when no element of the list has the queried
name. -/
theorem C8_lookup_exact_first_match (ts : List Technique) (n : String) :
    (∀ t : Technique, GetTechniqueByName ts n = some t ↔
      t.Name = n ∧ ∃ before after, ts = before ++ t :: after ∧
        ∀ u ∈ before, u.Name ≠ n)
    ∧ (GetTechniqueByName ts n = none ↔ ∀ t ∈ ts, t.Name ≠ n) := by
  constructor
  · intro t
    rw [getTechniqueByName_eq_find, List.find?_eq_some]
    simp
  · rw [getTechniqueByName_eq_find, List.find?_eq_none]
    simp

/-- Witness for C8: evaluation on a concrete catalog, exercising the
first-match direction and the not-found direction. -/
theorem C8_witness :
    GetTechniqueByName
      [⟨"persona_pattern", "s1", "c1"⟩, ⟨"persona_pattern", "s2", "c2"⟩] "persona_pattern"
      = some ⟨"persona_pattern", "s1", "c1"⟩
    ∧ GetTechniqueByName [⟨"persona_pattern", "s1", "c1"⟩] "nonexistent" = none := by
  constructor
  · exact ((C8_lookup_exact_first_match
      [⟨"persona_pattern", "s1", "c1"⟩, ⟨"persona_pattern", "s2", "c2"⟩] "persona_pattern").1
      ⟨"persona_pattern", "s1", "c1"⟩).2
      ⟨rfl, [], [⟨"persona_pattern", "s2", "c2"⟩], rfl, by simp⟩
  · exact ((C8_lookup_exact_first_match [⟨"persona_pattern", "s1", "c1"⟩] "nonexistent").2).2
      (by decide)

/-! ## Claim C9 -/

/-- C9 (confirmed).  `ReadInput` returns a non-empty input without a
recognized document extension unchanged; fails on the empty string; and
for an input with a recognized extension returns the file content when
the read succeeds and fails when it does not. -/
theorem C9_resolveInput (fs : String → Option String) (input : String) (verbose : Bool) :
    (recognizedDocExt input = false → input ≠ "" →
      ReadInput fs input verbose = .ok input)
    ∧ ReadInput fs "" verbose = .error "prompt input cannot be empty"
    ∧ (recognizedDocExt input = true →
        (∀ content, fs input = some content →
          ReadInput fs input verbose = .ok content)
        ∧ (fs input = none →
            ReadInput fs input verbose =
              .error ("failed to read prompt file \x27" ++ input ++ "\x27"))) := by
  refine ⟨?_, ?_, ?_⟩
  · intro h hne
    simp [ReadInput, h, hne]
  · have h0 : recognizedDocExt "" = false := rfl
    simp [ReadInput, h0]
  · intro h
    constructor
    · intro content hc
      simp [ReadInput, h, hc]
    · intro hc
      simp [ReadInput, h, hc]

/-- File-system oracle for the C9 witness. -/
def c9fs : String → Option String :=
  fun p => if p = "notes.md" then some "file content" else none

/-- Witness for C9: evaluation at a literal prompt, the empty string, a
readable markdown path and an unreadable text path. -/
theorem C9_witness :
    ReadInput c9fs "hello world" false = .ok "hello world"
    ∧ ReadInput c9fs "" false = .error "prompt input cannot be empty"
    ∧ ReadInput c9fs "notes.md" false = .ok "file content"
    ∧ ReadInput c9fs "missing.txt" false =
        .error "failed to read prompt file \x27missing.txt\x27" := by
  refine ⟨(C9_resolveInput c9fs "hello world" false).1 (by decide) (by decide),
    (C9_resolveInput c9fs "" false).2.1,
    ((C9_resolveInput c9fs "notes.md" false).2.2 (by decide)).1 "file content" (by decide),
    (((C9_resolveInput c9fs "missing.txt" false).2.2 (by decide)).2 (by decide)).trans (by decide)⟩

/-! ## Claim C10 -/

/-- C10 (confirmed).  The file-path test lower-cases the extension, so
any input whose extension lower-cases to `.txt` or `.md` is treated as a
file path and resolved through the file system (returning the file
content or a read error), never returned as the literal prompt text. -/
theorem C10_extension_case_insensitive (fs : String → Option String)
    (input : String) (verbose : Bool)
    (h : asciiToLower (filepathExt input) = ".txt" ∨
         asciiToLower (filepathExt input) = ".md") :
    ReadInput fs input verbose =
      (match fs input with
       | some content => .ok content
       | none => .error ("failed to read prompt file \x27" ++ input ++ "\x27")) := by
  have hrec : recognizedDocExt input = true := by
    unfold recognizedDocExt
    rcases h with h | h <;> simp [h]
  unfold ReadInput
  rw [hrec]
  simp

/-- File-system oracle for the C10 witness. -/
def c10fs : String → Option String :=
  fun p => if p = "PROMPT.TXT" then some "UPPER FILE" else none

/-- Witness for C10: an upper-case `.TXT` path is read from the file
system and a mixed-case `.Md` path produces a read error, neither is
echoed back as literal text. -/
theorem C10_witness :
    ReadInput c10fs "PROMPT.TXT" false = .ok "UPPER FILE"
    ∧ ReadInput c10fs "Notes.Md" false =
        .error "failed to read prompt file \x27Notes.Md\x27" := by
  constructor
  · exact (C10_extension_case_insensitive c10fs "PROMPT.TXT" false
      (Or.inl (by decide))).trans (by decide)
  · exact (C10_extension_case_insensitive c10fs "Notes.Md" false
      (Or.inr (by decide))).trans (by decide)

/-! ## Claim C3 -/

/-- Guidelines-file oracle for the C3 counterexample: the single
technique entry lacks the `name` field. -/
def c3gfs : String → Option JsonDoc :=
  fun p =>
    if p = "guidelines.json" then
      some (.value (.obj
        [("introduction", .str "Guide intro"),
         ("techniques", .arr [.obj
           [("summarized", .str "short"), ("complete", .str "long")]])]))
    else none

/-- Counterexample to C3 as stated: a configuration document whose
technique entry lacks the required string field `name` does NOT make
load fail — it returns a `GuidelineSet` whose technique has the empty
string for the missing field.  Load never validates per-technique
fields; its only validation is non-empty introduction and a non-empty
technique list. -/
theorem C3_counterexample :
    LoadGuidelines c3gfs "guidelines.json" =
      .ok ⟨"Guide intro", [⟨"", "short", "long"⟩]⟩ := by
  decide

/-- Unmarshalling one technique field whose JSON value is a string never
fails, and leaves every struct field whose key is not matched unchanged. -/
theorem decodeTechniqueField_ok (t0 : Technique) (kv : String × JValue)
    (s : String) (hs : kv.2 = .str s) :
    ∃ t1 : Technique, decodeTechniqueField t0 kv = .ok t1
      ∧ (asciiFoldEq kv.1 "name" = false → t1.Name = t0.Name)
      ∧ (asciiFoldEq kv.1 "summarized" = false → t1.Summarized = t0.Summarized)
      ∧ (asciiFoldEq kv.1 "complete" = false → t1.Complete = t0.Complete) := by
  cases h1 : asciiFoldEq kv.1 "name" with
  | true =>
    refine ⟨{ t0 with Name := s }, ?_, ?_, fun _ => rfl, fun _ => rfl⟩
    · simp [decodeTechniqueField, h1, hs, decodeString, Except.map]
    · intro hc
      exact absurd hc (by decide)
  | false =>
    cases h2 : asciiFoldEq kv.1 "summarized" with
    | true =>
      refine ⟨{ t0 with Summarized := s }, ?_, fun _ => rfl, ?_, fun _ => rfl⟩
      · simp [decodeTechniqueField, h1, h2, hs, decodeString, Except.map]
      · intro hc
        exact absurd hc (by decide)
    | false =>
      cases h3 : asciiFoldEq kv.1 "complete" with
      | true =>
        refine ⟨{ t0 with Complete := s }, ?_, fun _ => rfl, fun _ => rfl, ?_⟩
        · simp [decodeTechniqueField, h1, h2, h3, hs, decodeString, Except.map]
        · intro hc
          exact absurd hc (by decide)
      | false =>
        exact ⟨t0, by simp [decodeTechniqueField, h1, h2, h3],
          fun _ => rfl, fun _ => rfl, fun _ => rfl⟩

/-- The technique unmarshalling fold succeeds on every field list whose
values are strings — whichever of the three keys are present or absent,
in any order, unknown keys included — and every struct field none of
whose keys occurs keeps its accumulator value. -/
theorem decodeTechnique_foldlM (fields : List (String × JValue)) (t0 : Technique)
    (h : ∀ kv ∈ fields, ∃ s, kv.2 = JValue.str s) :
    ∃ t : Technique, fields.foldlM decodeTechniqueField t0 = .ok t
      ∧ ((∀ kv ∈ fields, asciiFoldEq kv.1 "name" = false) → t.Name = t0.Name)
      ∧ ((∀ kv ∈ fields, asciiFoldEq kv.1 "summarized" = false) →
          t.Summarized = t0.Summarized)
      ∧ ((∀ kv ∈ fields, asciiFoldEq kv.1 "complete" = false) →
          t.Complete = t0.Complete) := by
  induction fields generalizing t0 with
  | nil => exact ⟨t0, rfl, fun _ => rfl, fun _ => rfl, fun _ => rfl⟩
  | cons kv fields ih =>
    obtain ⟨s, hs⟩ := h kv (List.mem_cons_self _ _)
    obtain ⟨t1, ht1, hn1, hs1, hc1⟩ := decodeTechniqueField_ok t0 kv s hs
    obtain ⟨t, ht, hn, hsum, hcomp⟩ :=
      ih t1 (fun kv2 hkv2 => h kv2 (List.mem_cons_of_mem _ hkv2))
    refine ⟨t, ?_, ?_, ?_, ?_⟩
    · rw [List.foldlM_cons, ht1]
      exact ht
    · intro hall
      rw [hn fun kv2 hkv2 => hall kv2 (List.mem_cons_of_mem _ hkv2)]
      exact hn1 (hall kv (List.mem_cons_self _ _))
    · intro hall
      rw [hsum fun kv2 hkv2 => hall kv2 (List.mem_cons_of_mem _ hkv2)]
      exact hs1 (hall kv (List.mem_cons_self _ _))
    · intro hall
      rw [hcomp fun kv2 hkv2 => hall kv2 (List.mem_cons_of_mem _ hkv2)]
      exact hc1 (hall kv (List.mem_cons_self _ _))

/-- Mapping the technique decoder over values that each decode
successfully succeeds, preserving length and the entry at every index. -/
theorem mapM_loop_decodeTechnique (vs : List JValue) (acc : List Technique)
    (h : ∀ v ∈ vs, ∃ t, decodeTechnique v = .ok t) :
    ∃ l : List Technique,
      List.mapM.loop decodeTechnique vs acc = .ok (acc.reverse ++ l)
      ∧ l.length = vs.length
      ∧ ∀ i (hi : i < vs.length) (hil : i < l.length),
          decodeTechnique (vs.get ⟨i, hi⟩) = .ok (l.get ⟨i, hil⟩) := by
  induction vs generalizing acc with
  | nil =>
    refine ⟨[], by simp [List.mapM.loop, Pure.pure, Except.pure], rfl, ?_⟩
    intro i hi hil
    exact absurd hi (by simp)
  | cons v vs ih =>
    obtain ⟨t, ht⟩ := h v (List.mem_cons_self _ _)
    obtain ⟨l, hl, hlen, hidx⟩ :=
      ih (t :: acc) (fun v2 hv2 => h v2 (List.mem_cons_of_mem _ hv2))
    refine ⟨t :: l, ?_, by simp [hlen], ?_⟩
    · simp only [List.mapM.loop, ht, Bind.bind, Except.bind]
      rw [hl]
      simp
    · intro i hi hil
      cases i with
      | zero => exact ht
      | succ i =>
        exact hidx i (by simpa using Nat.lt_of_succ_lt_succ hi)
          (by simpa using Nat.lt_of_succ_lt_succ hil)

/-- Decoding a `techniques` array made of objects with string-valued
fields succeeds, preserving length and the entry at every index. -/
theorem decodeTechniqueList_objs (techFields : List (List (String × JValue)))
    (hstr : ∀ fs ∈ techFields, ∀ kv ∈ fs, ∃ s, kv.2 = JValue.str s) :
    ∃ l : List Technique,
      decodeTechniqueList (.arr (techFields.map JValue.obj)) = .ok l
      ∧ l.length = techFields.length
      ∧ ∀ i (hi : i < techFields.length) (hil : i < l.length),
          decodeTechnique (.obj (techFields.get ⟨i, hi⟩)) = .ok (l.get ⟨i, hil⟩) := by
  have hall : ∀ v ∈ techFields.map JValue.obj, ∃ t, decodeTechnique v = .ok t := by
    intro v hv
    rw [List.mem_map] at hv
    obtain ⟨fs, hfs, rfl⟩ := hv
    obtain ⟨t, ht, -, -, -⟩ := decodeTechnique_foldlM fs ⟨"", "", ""⟩ (hstr fs hfs)
    exact ⟨t, ht⟩
  obtain ⟨l, hl, hlen, hidx⟩ :=
    mapM_loop_decodeTechnique (techFields.map JValue.obj) [] hall
  refine ⟨l, by simpa [decodeTechniqueList, List.mapM] using hl,
    by simpa using hlen, ?_⟩
  intro i hi hil
  have hvi : i < (techFields.map JValue.obj).length := by simpa using hi
  have hmap : (techFields.map JValue.obj).get ⟨i, hvi⟩ =
      JValue.obj (techFields.get ⟨i, hi⟩) := by
    simp [List.get_eq_getElem, List.getElem_map]
  have := hidx i hvi hil
  rw [hmap] at this
  exact this

/-- Decoding a guidelines document whose techniques decode to `l`. -/
theorem decodeGuidelines_doc (intro : String) (vs : List JValue)
    (l : List Technique) (hvs : decodeTechniqueList (.arr vs) = .ok l) :
    decodeGuidelines (.obj
      [("introduction", .str intro), ("techniques", .arr vs)]) = .ok ⟨intro, l⟩ := by
  simp +decide [decodeGuidelines, List.foldlM, decodeString, Except.map,
    Bind.bind, Except.bind, Pure.pure, Except.pure, hvs]

/-- C3 (corrected).  Load performs no per-technique field validation.
For every configuration document with a non-empty introduction and a
non-empty techniques array whose entries are objects with string-valued
fields — any subset of the three keys `name`, `summarized`, `complete`,
in any order, unknown keys ignored — load succeeds and returns the
`GuidelineSet` in which every technique field whose key is absent from
its entry is the empty string.  In particular a technique entry lacking
one (or more, or all) of its three required fields never makes load
fail. -/
theorem C3_amended (intro : String) (techFields : List (List (String × JValue)))
    (hintro : intro ≠ "") (hne : techFields ≠ [])
    (hstr : ∀ fs ∈ techFields, ∀ kv ∈ fs, ∃ s, kv.2 = JValue.str s) :
    ∃ g : Guidelines,
      LoadGuidelines
        (fun p =>
          if p = "guidelines.json" then
            some (.value (.obj
              [("introduction", .str intro),
               ("techniques", .arr (techFields.map JValue.obj))]))
          else none)
        "guidelines.json" = .ok g
      ∧ g.Introduction = intro
      ∧ g.Techniques.length = techFields.length
      ∧ ∀ i (hi : i < techFields.length) (hg : i < g.Techniques.length),
          ((∀ kv ∈ techFields.get ⟨i, hi⟩, asciiFoldEq kv.1 "name" = false) →
            (g.Techniques.get ⟨i, hg⟩).Name = "")
          ∧ ((∀ kv ∈ techFields.get ⟨i, hi⟩, asciiFoldEq kv.1 "summarized" = false) →
            (g.Techniques.get ⟨i, hg⟩).Summarized = "")
          ∧ ((∀ kv ∈ techFields.get ⟨i, hi⟩, asciiFoldEq kv.1 "complete" = false) →
            (g.Techniques.get ⟨i, hg⟩).Complete = "") := by
  obtain ⟨l, hlist, hlen, hidx⟩ := decodeTechniqueList_objs techFields hstr
  have hdec := decodeGuidelines_doc intro (techFields.map JValue.obj) l hlist
  have hlz : ¬(l.length = 0) := by
    rw [hlen, List.length_eq_zero]
    exact hne
  refine ⟨⟨intro, l⟩, ?_, rfl, hlen, ?_⟩
  · simp +decide [LoadGuidelines, hdec, hintro, hlz]
  · intro i hi hg2
    have hti := hidx i hi hg2
    obtain ⟨t, ht, hn, hsum, hcomp⟩ :=
      decodeTechnique_foldlM (techFields.get ⟨i, hi⟩) ⟨"", "", ""⟩
        (hstr _ (List.get_mem _ _ _))
    have hteq : t = l.get ⟨i, hg2⟩ := by
      have h2 : Except.ok (ε := String) t = Except.ok (l.get ⟨i, hg2⟩) := by
        rw [← ht]
        exact hti
      exact Except.ok.inj h2
    refine ⟨?_, ?_, ?_⟩
    · intro hall
      rw [← hteq]
      exact hn hall
    · intro hall
      rw [← hteq]
      exact hsum hall
    · intro hall
      rw [← hteq]
      exact hcomp hall

/-- Technique entries for the C3 witness: the first lacks `name`, the
second lacks both `summarized` and `complete`. -/
def c3wfields : List (List (String × JValue)) :=
  [[("summarized", .str "short"), ("complete", .str "long")],
   [("name", .str "n2")]]

/-- Witness for C3: a two-technique document in which one entry lacks
`name` and the other lacks `summarized` and `complete` loads
successfully with both techniques present. -/
theorem C3_witness :
    ∃ g : Guidelines,
      LoadGuidelines
        (fun p =>
          if p = "guidelines.json" then
            some (.value (.obj
              [("introduction", .str "Guide intro"),
               ("techniques", .arr (c3wfields.map JValue.obj))]))
          else none)
        "guidelines.json" = .ok g
      ∧ g.Introduction = "Guide intro"
      ∧ g.Techniques.length = 2 := by
  obtain ⟨g, hload, hi, hlen, -⟩ :=
    C3_amended "Guide intro" c3wfields (by decide) (by simp [c3wfields])
      (by
        intro fs hfs kv hkv
        simp only [c3wfields, List.mem_cons, List.not_mem_nil, or_false] at hfs
        rcases hfs with rfl | rfl
        · simp only [List.mem_cons, List.not_mem_nil, or_false] at hkv
          rcases hkv with rfl | rfl
          · exact ⟨"short", rfl⟩
          · exact ⟨"long", rfl⟩
        · simp only [List.mem_cons, List.not_mem_nil, or_false] at hkv
          rw [hkv]
          exact ⟨"n2", rfl⟩)
  exact ⟨g, hload, hi, hlen.trans rfl⟩

/-! ## Claim C7 -/

/-- Guidelines-file oracle for the C7 counterexample: syntactically
valid JSON whose `introduction` field is a number (a type that does not
match the data model) and whose techniques array is non-empty and
complete. -/
def c7gfs : String → Option JsonDoc :=
  fun p =>
    if p = "guidelines.json" then
      some (.value (.obj
        [("introduction", .num 5),
         ("techniques", .arr [.obj
           [("name", .str "persona_pattern"),
            ("summarized", .str "s"), ("complete", .str "c")]])]))
    else none

/-- Counterexample to C7 as stated: this document is readable and
syntactically valid JSON, its techniques array is non-empty, and its
introduction field is present and non-empty (the number `5`) — none of
the four failure cases the claim enumerates — yet load fails, because
unmarshalling a number into the string field is a type error. -/
theorem C7_counterexample :
    (∃ v, c7gfs "guidelines.json" = some (.value v))
    ∧ LoadGuidelines c7gfs "guidelines.json" =
        .error "failed to unmarshal guidelines JSON from \x27guidelines.json\x27: cannot unmarshal value into Go string" :=
  ⟨⟨_, rfl⟩, by decide⟩

/-- C7 (corrected).  Load fails exactly when: the file is missing or
unreadable, the content is not syntactically valid JSON, the content is
well-formed JSON that does not match the structure or types of the data
model (an unmarshal type error), the parsed introduction is empty, or
the parsed technique list is empty; in every remaining case it returns
the parsed `GuidelineSet`. -/
theorem C7_amended (gfs : String → Option JsonDoc) (path : String) :
    (gfs path = none → ∃ e, LoadGuidelines gfs path = .error e)
    ∧ (gfs path = some .malformed → ∃ e, LoadGuidelines gfs path = .error e)
    ∧ (∀ v e, gfs path = some (.value v) → decodeGuidelines v = .error e →
        ∃ e2, LoadGuidelines gfs path = .error e2)
    ∧ (∀ v g, gfs path = some (.value v) → decodeGuidelines v = .ok g →
        ((g.Introduction = "" ∨ g.Techniques = [] →
            ∃ e, LoadGuidelines gfs path = .error e)
         ∧ (g.Introduction ≠ "" → g.Techniques ≠ [] →
            LoadGuidelines gfs path = .ok g))) := by
  refine ⟨?_, ?_, ?_, ?_⟩
  · intro hfs
    refine ⟨"failed to read guidelines file \x27" ++ path ++ "\x27", ?_⟩
    simp [LoadGuidelines, hfs]
  · intro hfs
    refine ⟨"failed to unmarshal guidelines JSON from \x27" ++ path ++ "\x27", ?_⟩
    simp [LoadGuidelines, hfs]
  · intro v e hfs hdec
    refine ⟨"failed to unmarshal guidelines JSON from \x27" ++ path ++ "\x27: " ++ e, ?_⟩
    simp [LoadGuidelines, hfs, hdec]
  · intro v g hfs hdec
    constructor
    · intro hbad
      refine ⟨"guidelines file \x27" ++ path ++ "\x27 is missing introduction or techniques", ?_⟩
      have hcond : (g.Introduction = "" || g.Techniques.length = 0) = true := by
        rcases hbad with hb | hb <;> simp [hb]
      simp [LoadGuidelines, hfs, hdec, hcond]
      exact fun h => hbad.resolve_left h
    · intro hi ht
      simp [LoadGuidelines, hfs, hdec]
      exact ⟨hi, ht⟩

/-- Guidelines-file oracle for the C7 witness: a fully well-formed
document. -/
def c7wgfs : String → Option JsonDoc :=
  fun _ =>
    some (.value (.obj
      [("introduction", .str "I"),
       ("techniques", .arr [.obj
         [("name", .str "n"), ("summarized", .str "s"), ("complete", .str "c")]])]))

/-- Witness for C7: the success case on a well-formed document and the
failure case on a missing file. -/
theorem C7_witness :
    LoadGuidelines c7wgfs "guidelines.json" = .ok ⟨"I", [⟨"n", "s", "c"⟩]⟩
    ∧ (∃ e, LoadGuidelines (fun _ => none) "guidelines.json" = .error e) := by
  constructor
  · exact ((C7_amended c7wgfs "guidelines.json").2.2.2 _ ⟨"I", [⟨"n", "s", "c"⟩]⟩
      rfl (by decide)).2 (by decide) (by decide)
  · exact (C7_amended (fun _ => none) "guidelines.json").1 rfl

/-! ## Claim C1 -/

/-- Decoding a list of JSON strings into `[]string` recovers the
underlying strings. -/
theorem mapM_loop_decodeString_strs (qs : List String) (acc : List String) :
    List.mapM.loop decodeString (qs.map .str) acc = .ok (acc.reverse ++ qs) := by
  induction qs generalizing acc with
  | nil => simp [List.mapM.loop, Pure.pure, Except.pure]
  | cons q qs ih =>
    simp [List.mapM.loop, decodeString, ih, Bind.bind, Except.bind]

theorem decodeStringList_strs (qs : List String) :
    decodeStringList (.arr (qs.map .str)) = .ok qs := by
  simp [decodeStringList, List.mapM, mapM_loop_decodeString_strs]

/-- A stage-1 remote response shaped exactly as claim C1 describes:
`ClarifyingQuestions` is an array of objects with the required fields
`question` and `exampleAnswer`. -/
def c1response : JValue :=
  .obj [("ChoseTechnique", .str "persona_pattern"),
        ("ClarifyingQuestions",
          .arr [.obj [("question", .str "Who is the audience?"),
                      ("exampleAnswer", .str "Beginners")]])]

/-- Counterexample to C1 as stated: the enforced output contract types
the `ClarifyingQuestions` items as strings, not objects, and a response
carrying the claimed object shape is rejected by the strict parse
(unmarshalling an object into a `[]string` element is a type error), so
the gateway neither constrains to nor parses the claimed shape. -/
theorem C1_counterexample :
    analyzeConfig.ResponseSchema =
      some (.object [("ChoseTechnique", .string),
                     ("ClarifyingQuestions", .array .string)])
    ∧ AnalyzePrompt (fun _ _ _ => .ok (.value c1response)) "intro" "- t: s\n" "user prompt"
        = .error "failed to unmarshal analysis response JSON: cannot unmarshal value into Go string" :=
  ⟨rfl, by decide⟩

/-- C1 (corrected).  For every stage-1 call the gateway passes the
service an output contract constraining the response to a JSON object
with a string field `ChoseTechnique` and a `ClarifyingQuestions` field
that is an array of strings (the question/example-answer object shape
appears only in the instruction text, not in the enforced schema); the
returned text is parsed strictly as that string-array shape, and a
generation failure or a parse failure surfaces as an error aborting the
analysis. -/
theorem C1_amended :
    analyzeConfig.ResponseMIMEType = "application/json"
    ∧ analyzeConfig.ResponseSchema =
        some (.object [("ChoseTechnique", .string),
                       ("ClarifyingQuestions", .array .string)])
    ∧ (∀ t qs, decodeAnalysisResult
        (.obj [("ChoseTechnique", .str t), ("ClarifyingQuestions", .arr (qs.map .str))])
        = .ok ⟨t, qs⟩)
    ∧ (∀ gen intro st up doc,
        gen "gemini-2.0-flash" analyzeConfig
            (buildAnalyzePrompt (intro ++ "\n\n" ++ st) up) = .ok doc →
        AnalyzePrompt gen intro st up =
          (match doc with
           | .malformed => .error "failed to unmarshal analysis response JSON"
           | .value v =>
             match decodeAnalysisResult v with
             | .error e => .error ("failed to unmarshal analysis response JSON: " ++ e)
             | .ok r => .ok r))
    ∧ (∀ gen intro st up e,
        gen "gemini-2.0-flash" analyzeConfig
            (buildAnalyzePrompt (intro ++ "\n\n" ++ st) up) = .error e →
        AnalyzePrompt gen intro st up =
          .error ("failed to generate content for analysis: " ++ e)) := by
  refine ⟨rfl, rfl, ?_, ?_, ?_⟩
  · intro t qs
    simp +decide [decodeAnalysisResult, List.foldlM, decodeString, Except.map,
      decodeStringList_strs, Bind.bind, Except.bind, Pure.pure, Except.pure]
  · intro gen intro st up doc hgen
    unfold AnalyzePrompt
    simp only [hgen]
    cases doc <;> rfl
  · intro gen intro st up e hgen
    unfold AnalyzePrompt
    simp only [hgen]

/-- Witness for C1: a string-array response parses into the expected
`AnalysisResult` and a malformed response aborts with an error. -/
theorem C1_witness :
    AnalyzePrompt
      (fun _ _ _ => .ok (.value (.obj
        [("ChoseTechnique", .str "persona_pattern"),
         ("ClarifyingQuestions", .arr [.str "Q1", .str "Q2"])])))
      "i" "s" "u"
      = .ok ⟨"persona_pattern", ["Q1", "Q2"]⟩
    ∧ AnalyzePrompt (fun _ _ _ => .ok .malformed) "i" "s" "u"
      = .error "failed to unmarshal analysis response JSON" := by
  constructor
  · exact (C1_amended.2.2.2.1 _ "i" "s" "u" _ rfl).trans (by decide)
  · exact (C1_amended.2.2.2.1 _ "i" "s" "u" .malformed rfl).trans rfl

/-! ## Claim C2 -/

/-- World for the C2 evaluation: a well-formed guideline file, a valid
credential, a stage-1 response choosing the only technique with no
clarifying questions, and a stage-2 response `Final text`. -/
def c2world : World :=
  ⟨fun p =>
    if p = "guidelines.json" then
      some (.value (.obj
        [("introduction", .str "Guide intro"),
         ("techniques", .arr [.obj
           [("name", .str "clear_instructions"),
            ("summarized", .str "short"), ("complete", .str "long")]])]))
    else none,
   fun _ => none,
   "key", true,
   fun _ => .ok "line\n",
   fun _ _ _ => .ok (.value (.obj
     [("ChoseTechnique", .str "clear_instructions"),
      ("ClarifyingQuestions", .arr [])])),
   fun _ _ _ => .ok "Final text"⟩

/-- C2 (code bug, evaluated at the failing input).  A run given the
non-empty output destination `out.txt` that reaches the refined state
with enhanced prompt `Final text` writes NO file at all: `main` never
invokes `HandleOutput`, it unconditionally prints the text (with a
trailing newline) to standard output — even though the embedded
`HandleOutput` (the output sink of the specification) would have
written the file verbatim, as the last two conjuncts show, and even
though in verbose mode `main` reports the file as saved. -/
theorem C2_file_destination_never_written :
    (mainRun c2world "Explain gravity" "out.txt" false id).fileWrites = []
    ∧ (mainRun c2world "Explain gravity" "out.txt" false id).outcome = .ok "Final text"
    ∧ (mainRun c2world "Explain gravity" "out.txt" false id).stdout
        = "Final text\nGemini client resources released (placeholder).\n"
    ∧ HandleOutput "Final text" "out.txt" false = ⟨"", [("out.txt", "Final text")]⟩
    ∧ HandleOutput "Final text" "" false = ⟨"Final text\n", []⟩ := by
  refine ⟨?_, ?_, ?_, rfl, rfl⟩ <;> decide

/-! ## Claim C4 -/

/-- C4 (confirmed).  In every run whose stage 1 succeeds with a chosen
technique name that resolves to no technique of the loaded guideline
set, the run terminates fatally with the resolution diagnostic and the
stage-2 refine call is never invoked (the trace of stage-2 requests is
empty). -/
theorem C4_unresolved_technique_fatal (w : World)
    (promptInput outputPath : String) (verbose : Bool)
    (mapOrder : List (String × String) → List (String × String))
    (g : Guidelines) (userPrompt : String) (res : AnalysisResult)
    (hpi : promptInput ≠ "")
    (hg : LoadGuidelines w.gfs "guidelines.json" = .ok g)
    (hr : ReadInput w.fs promptInput verbose = .ok userPrompt)
    (hk : w.apiKey ≠ "")
    (hc : w.clientInitOk = true)
    (ha : AnalyzePrompt w.analyzeGen g.Introduction
      (summarizeTechniques g.Techniques) userPrompt = .ok res)
    (hn : GetTechniqueByName g.Techniques res.ChosenTechniqueName = none) :
    (mainRun w promptInput outputPath verbose mapOrder).outcome =
      .error ("Error: Chosen technique \x27" ++ res.ChosenTechniqueName ++
              "\x27 not found in guidelines.")
    ∧ (mainRun w promptInput outputPath verbose mapOrder).refineCalls = [] := by
  unfold mainRun
  simp [hpi, hg, hr, hk, hc, ha]
  unfold mainAfterAnalyze
  simp [hn]

/-- World for the C4 witness: stage 1 chooses `nonexistent`, absent from
the loaded set. -/
def c4world : World :=
  ⟨fun p =>
    if p = "guidelines.json" then
      some (.value (.obj
        [("introduction", .str "I"),
         ("techniques", .arr [.obj
           [("name", .str "persona_pattern"),
            ("summarized", .str "s"), ("complete", .str "c")]])]))
    else none,
   fun _ => none,
   "key", true,
   fun _ => .ok "line\n",
   fun _ _ _ => .ok (.value (.obj
     [("ChoseTechnique", .str "nonexistent"),
      ("ClarifyingQuestions", .arr [])])),
   fun _ _ _ => .ok "never used"⟩

/-- Witness for C4: the concrete run aborts with the resolution
diagnostic and performs no stage-2 call. -/
theorem C4_witness :
    (mainRun c4world "Explain gravity" "" false id).outcome =
      .error "Error: Chosen technique \x27nonexistent\x27 not found in guidelines."
    ∧ (mainRun c4world "Explain gravity" "" false id).refineCalls = [] :=
  C4_unresolved_technique_fatal c4world "Explain gravity" "" false id
    ⟨"I", [⟨"persona_pattern", "s", "c"⟩]⟩ "Explain gravity" ⟨"nonexistent", []⟩
    (by decide) (by decide) (by decide) (by decide) rfl (by decide) (by decide)

/-! ## Claim C6 -/

/-- Lookup after inserting the same key yields the inserted value. -/
theorem goMapLookup_insert_self (m : List (String × String)) (k v : String) :
    goMapLookup (goMapInsert m k v) k = some v := by
  induction m with
  | nil => simp [goMapInsert, goMapLookup]
  | cons kv m ih =>
    by_cases h : kv.1 = k
    · simp [goMapInsert, goMapLookup, h]
    · simp [goMapInsert, goMapLookup, h, ih]

/-- Lookup of a different key is unchanged by an insert. -/
theorem goMapLookup_insert_ne (m : List (String × String)) (k v k2 : String)
    (h : k ≠ k2) :
    goMapLookup (goMapInsert m k v) k2 = goMapLookup m k2 := by
  induction m with
  | nil => simp [goMapInsert, goMapLookup, h]
  | cons kv m ih =>
    by_cases hk : kv.1 = k
    · simp [goMapInsert, goMapLookup, hk, h]
    · by_cases hk2 : kv.1 = k2
      · simp [goMapInsert, goMapLookup, hk, hk2, Ne.symm h]
      · simp [goMapInsert, goMapLookup, hk, hk2, ih]

/-- Membership after an insert comes from the old bindings or is the
inserted pair. -/
theorem mem_goMapInsert (m : List (String × String)) (k v : String)
    (kv2 : String × String) (h : kv2 ∈ goMapInsert m k v) :
    kv2 ∈ m ∨ kv2 = (k, v) ∨ kv2.1 = k := by
  induction m with
  | nil =>
    simp [goMapInsert] at h
    exact Or.inr (Or.inl (by cases h; rfl))
  | cons kv m ih =>
    by_cases hk : kv.1 = k
    · simp [goMapInsert, hk] at h
      rcases h with h | h
      · exact Or.inr (Or.inr (by rw [h, ← hk]))
      · exact Or.inl (List.mem_cons_of_mem _ h)
    · simp [goMapInsert, hk] at h
      rcases h with h | h
      · exact Or.inl (by simp [h])
      · rcases ih h with h2 | h2 | h2
        · exact Or.inl (List.mem_cons_of_mem _ h2)
        · exact Or.inr (Or.inl h2)
        · exact Or.inr (Or.inr h2)

/-- Keys of the collected answer map come from the old bindings or the
processed questions. -/
theorem collectAnswersAux_keys (stdin : Nat → Except Unit String)
    (qs : List String) (i : Nat) (m : List (String × String))
    (k v : String) (h : (k, v) ∈ (collectAnswersAux stdin qs i m).bindings) :
    (∃ v0, (k, v0) ∈ m) ∨ k ∈ qs := by
  induction qs generalizing i m with
  | nil =>
    simp [collectAnswersAux] at h
    exact Or.inl ⟨v, h⟩
  | cons q qs ih =>
    simp only [collectAnswersAux] at h
    cases hs : stdin i with
    | error u =>
      rw [hs] at h
      rcases ih (i + 1) m h with h2 | h2
      · exact Or.inl h2
      · exact Or.inr (List.mem_cons_of_mem _ h2)
    | ok a =>
      rw [hs] at h
      rcases ih (i + 1) (goMapInsert m q (trimSpace a)) h with h2 | h2
      · rcases h2 with ⟨v0, hv0⟩
        rcases mem_goMapInsert m q (trimSpace a) (k, v0) hv0 with h3 | h3 | h3
        · exact Or.inl ⟨v0, h3⟩
        · exact Or.inr (by simp [Prod.ext_iff] at h3; simp [h3.1])
        · exact Or.inr (by simp at h3; simp [h3])
      · exact Or.inr (List.mem_cons_of_mem _ h2)

/-- Collecting over questions that do not mention key `k` leaves the
lookup of `k` unchanged. -/
theorem collectAnswersAux_lookup_notmem (stdin : Nat → Except Unit String)
    (qs : List String) (i : Nat) (m : List (String × String)) (k : String)
    (h : k ∉ qs) :
    goMapLookup (collectAnswersAux stdin qs i m).bindings k = goMapLookup m k := by
  induction qs generalizing i m with
  | nil => rfl
  | cons q qs ih =>
    have hqk : q ≠ k := fun he => h (by simp [he])
    have hqs : k ∉ qs := fun he => h (List.mem_cons_of_mem _ he)
    simp only [collectAnswersAux]
    cases hs : stdin i with
    | error u => exact ih (i + 1) m hqs
    | ok a =>
      rw [ih (i + 1) (goMapInsert m q (trimSpace a)) hqs]
      exact goMapLookup_insert_ne m q (trimSpace a) k hqk

/-- Whether one interactive read failed. -/
def isReadFailure : Except Unit String → Bool
  | .error _ => true
  | .ok _ => false

/-- The number of warnings is the number of failed reads among the
questions processed. -/
theorem collectAnswersAux_warnings (stdin : Nat → Except Unit String)
    (qs : List String) (i : Nat) (m : List (String × String)) :
    (collectAnswersAux stdin qs i m).warnings =
      ((List.range qs.length).countP fun j => isReadFailure (stdin (i + j))) := by
  induction qs generalizing i m with
  | nil => simp [collectAnswersAux]
  | cons q qs ih =>
    simp only [collectAnswersAux]
    have hshift : ∀ m2 : List (String × String),
        ((List.range (q :: qs).length).countP fun j => isReadFailure (stdin (i + j))) =
          (if isReadFailure (stdin i) then 1 else 0) +
          ((List.range qs.length).countP fun j => isReadFailure (stdin (i + 1 + j))) := by
      intro m2
      rw [List.length_cons, List.range_succ_eq_map, List.countP_cons, List.countP_map]
      have harg : ((fun j => isReadFailure (stdin (i + j))) ∘ Nat.succ) =
          fun j => isReadFailure (stdin (i + 1 + j)) := by
        funext j
        have h2 : i + Nat.succ j = i + 1 + j := by omega
        simp only [Function.comp_apply]
        rw [h2]
      rw [harg]
      simp [Nat.add_comm]
    cases hs : stdin i with
    | error u =>
      rw [hshift m, hs]
      simp [isReadFailure, ih (i + 1) m, Nat.add_comm]
    | ok a =>
      rw [hshift m, hs]
      simp [isReadFailure, ih (i + 1) (goMapInsert m q (trimSpace a))]

/-- The central lookup characterization: with pairwise-distinct
questions, the final lookup of the question at position `j` reflects
exactly the read outcome of its own prompt. -/
theorem collectAnswersAux_lookup (stdin : Nat → Except Unit String)
    (qs : List String) (i : Nat) (m : List (String × String))
    (hq : qs.Nodup) (hm : ∀ q ∈ qs, goMapLookup m q = none)
    (jv : Nat) (hj : jv < qs.length) :
    goMapLookup (collectAnswersAux stdin qs i m).bindings (qs.get ⟨jv, hj⟩) =
      (match stdin (i + jv) with
       | .ok a => some (trimSpace a)
       | .error _ => none) := by
  induction qs generalizing i m jv with
  | nil => exact absurd hj (by simp)
  | cons q qs ih =>
    rcases List.nodup_cons.mp hq with ⟨hqnot, hqs⟩
    cases jv with
    | zero =>
      simp only [List.get, Nat.add_zero]
      cases hs : stdin i with
      | error u =>
        have hred : (collectAnswersAux stdin (q :: qs) i m).bindings =
            (collectAnswersAux stdin qs (i + 1) m).bindings := by
          simp only [collectAnswersAux, hs]
        rw [hred, collectAnswersAux_lookup_notmem stdin qs (i + 1) m q hqnot]
        exact hm q (by simp)
      | ok a =>
        have hred : (collectAnswersAux stdin (q :: qs) i m).bindings =
            (collectAnswersAux stdin qs (i + 1) (goMapInsert m q (trimSpace a))).bindings := by
          simp only [collectAnswersAux, hs]
        rw [hred, collectAnswersAux_lookup_notmem stdin qs (i + 1) _ q hqnot]
        exact goMapLookup_insert_self m q (trimSpace a)
    | succ jv =>
      have hj2 : jv < qs.length := by simpa using Nat.lt_of_succ_lt_succ hj
      have hidx : i + 1 + jv = i + (jv + 1) := by omega
      simp only [List.get]
      cases hs : stdin i with
      | error u =>
        have hred : (collectAnswersAux stdin (q :: qs) i m).bindings =
            (collectAnswersAux stdin qs (i + 1) m).bindings := by
          simp only [collectAnswersAux, hs]
        rw [hred, ih (i + 1) m hqs
          (fun q2 hq2 => hm q2 (List.mem_cons_of_mem _ hq2)) jv hj2, hidx]
      | ok a =>
        have hm2 : ∀ q2 ∈ qs, goMapLookup (goMapInsert m q (trimSpace a)) q2 = none := by
          intro q2 hq2
          have hne : q ≠ q2 := fun he => hqnot (he ▸ hq2)
          rw [goMapLookup_insert_ne m q (trimSpace a) q2 hne]
          exact hm q2 (List.mem_cons_of_mem _ hq2)
        have hred : (collectAnswersAux stdin (q :: qs) i m).bindings =
            (collectAnswersAux stdin qs (i + 1) (goMapInsert m q (trimSpace a))).bindings := by
          simp only [collectAnswersAux, hs]
        rw [hred, ih (i + 1) (goMapInsert m q (trimSpace a)) hqs hm2 jv hj2, hidx]

/-- C6 (confirmed).  The answer-collection step: with no clarifying
questions the answer map is empty and no interaction occurs (the result
does not depend on the input channel and echoes nothing); otherwise each
question is prompted in order and, for pairwise-distinct questions, the
final map binds the verbatim question text of position `j` to the
whitespace-trimmed answer exactly when its read succeeded, and to
nothing when its read failed; every failed read contributes exactly one
warning and processing continues; and every key of the map is one of the
question texts. -/
theorem C6_answer_collection (stdin : Nat → Except Unit String)
    (questions : List String) :
    (questions = [] →
      ∀ stdin2, collectAnswers stdin2 questions = ⟨[], "", 0⟩)
    ∧ (questions.Nodup → ∀ j : Fin questions.length,
        goMapLookup (collectAnswers stdin questions).bindings (questions.get j) =
          (match stdin j.val with
           | .ok a => some (trimSpace a)
           | .error _ => none))
    ∧ (collectAnswers stdin questions).warnings =
        ((List.range questions.length).countP fun j => isReadFailure (stdin j))
    ∧ (∀ k v, (k, v) ∈ (collectAnswers stdin questions).bindings →
        k ∈ questions) := by
  refine ⟨?_, ?_, ?_, ?_⟩
  · intro h stdin2
    rw [h]
    rfl
  · intro hq j
    have := collectAnswersAux_lookup stdin questions 0 [] hq
      (fun q _ => rfl) j.val j.isLt
    simpa using this
  · have := collectAnswersAux_warnings stdin questions 0 []
    simpa using this
  · intro k v h
    rcases collectAnswersAux_keys stdin questions 0 [] k v h with h2 | h2
    · rcases h2 with ⟨v0, hv0⟩
      simp at hv0
    · exact h2

/-- Interactive channel for the C6 witness: every read succeeds with a
padded line. -/
def c6stdin : Nat → Except Unit String :=
  fun _ => .ok " Paris \n"

/-- Interactive channel for the C6 witness failure case: the first read
fails, the second succeeds. -/
def c6stdinFail : Nat → Except Unit String :=
  fun i => if i = 0 then .error () else .ok "x\n"

/-- Witness for C6: one question answered with a padded line is stored
trimmed under the question text; the empty question list yields the
empty map with no interaction; a failed first read of two questions
yields exactly one warning, no binding for the failed question, and the
binding for the second. -/
theorem C6_witness :
    goMapLookup (collectAnswers c6stdin ["What city?"]).bindings "What city?"
      = some "Paris"
    ∧ collectAnswers c6stdin [] = ⟨[], "", 0⟩
    ∧ (collectAnswers c6stdinFail ["q1", "q2"]).warnings = 1
    ∧ goMapLookup (collectAnswers c6stdinFail ["q1", "q2"]).bindings "q1" = none
    ∧ goMapLookup (collectAnswers c6stdinFail ["q1", "q2"]).bindings "q2" = some "x" := by
  refine ⟨?_, ?_, ?_, ?_, ?_⟩
  · exact ((C6_answer_collection c6stdin ["What city?"]).2.1 (by decide)
      ⟨0, by decide⟩).trans (by decide)
  · exact (C6_answer_collection c6stdin []).1 rfl c6stdin
  · exact ((C6_answer_collection c6stdinFail ["q1", "q2"]).2.2.1).trans (by decide)
  · exact ((C6_answer_collection c6stdinFail ["q1", "q2"]).2.1 (by decide)
      ⟨0, by decide⟩).trans (by decide)
  · exact ((C6_answer_collection c6stdinFail ["q1", "q2"]).2.1 (by decide)
      ⟨1, by decide⟩).trans (by decide)

/-! ## Claim C5 -/

/-- Strict order of map bindings by key. -/
def pairKeyLt (a b : String × String) : Prop :=
  a.1 < b.1

instance : IsTotal (String × String) pairKeyLe :=
  ⟨fun a b => le_total a.1 b.1⟩

instance : IsTrans (String × String) pairKeyLe :=
  ⟨fun _ _ _ h₁ h₂ => le_trans h₁ h₂⟩

instance : IsAntisymm (String × String) pairKeyLt :=
  ⟨fun a _ h₁ h₂ => absurd (lt_trans h₁ h₂) (lt_irrefl a.1)⟩

/-- A list sorted by key whose keys are pairwise distinct is strictly
sorted by key. -/
theorem sorted_pairKeyLt_of_le {l : List (String × String)}
    (hs : l.Sorted pairKeyLe) (hn : (l.map Prod.fst).Nodup) :
    l.Sorted pairKeyLt := by
  induction l with
  | nil => exact List.sorted_nil
  | cons a l ih =>
    rw [List.sorted_cons] at hs ⊢
    rw [List.map_cons, List.nodup_cons] at hn
    refine ⟨fun b hb => ?_, ih hs.2 hn.2⟩
    have hle : a.1 ≤ b.1 := hs.1 b hb
    have hne : a.1 ≠ b.1 := by
      intro he
      apply hn.1
      rw [he]
      exact List.mem_map_of_mem Prod.fst hb
    exact lt_of_le_of_ne hle hne

/-- Two permuted binding lists with pairwise-distinct keys sort to the
same list: the key-sorted presentation is canonical. -/
theorem insertionSort_key_eq (m₁ m₂ : List (String × String))
    (hp : m₁.Perm m₂) (hn : (m₂.map Prod.fst).Nodup) :
    List.insertionSort pairKeyLe m₁ = List.insertionSort pairKeyLe m₂ := by
  have p₁ := List.perm_insertionSort pairKeyLe m₁
  have p₂ := List.perm_insertionSort pairKeyLe m₂
  have hp12 : (List.insertionSort pairKeyLe m₁).Perm (List.insertionSort pairKeyLe m₂) :=
    (p₁.trans hp).trans p₂.symm
  have hn₂ : ((List.insertionSort pairKeyLe m₂).map Prod.fst).Nodup :=
    ((p₂.map Prod.fst).nodup_iff).mpr hn
  have hn₁ : ((List.insertionSort pairKeyLe m₁).map Prod.fst).Nodup :=
    ((hp12.map Prod.fst).nodup_iff).mpr hn₂
  exact List.eq_of_perm_of_sorted hp12
    (sorted_pairKeyLt_of_le (List.sorted_insertionSort pairKeyLe m₁) hn₁)
    (sorted_pairKeyLt_of_le (List.sorted_insertionSort pairKeyLe m₂) hn₂)

/-- The fmt rendering of a map is invariant under permutation of the
binding list (Go prints the entries sorted by key), for lists with
pairwise-distinct keys — as map binding lists always have. -/
theorem goFmtMap_perm (m₁ m₂ : List (String × String))
    (hp : m₁.Perm m₂) (hn : (m₂.map Prod.fst).Nodup) :
    goFmtMap m₁ = goFmtMap m₂ := by
  unfold goFmtMap
  rw [insertionSort_key_eq m₁ m₂ hp hn]

/-- A key present after an insert was present before or is the inserted
key. -/
theorem mem_keys_goMapInsert (m : List (String × String)) (k v k2 : String)
    (h : k2 ∈ (goMapInsert m k v).map Prod.fst) :
    k2 ∈ m.map Prod.fst ∨ k2 = k := by
  induction m with
  | nil => simpa [goMapInsert] using h
  | cons kv m ih =>
    by_cases hk : kv.1 = k
    · simp only [goMapInsert] at h
      rw [if_pos hk, List.map_cons, List.mem_cons] at h
      rcases h with h | h
      · exact Or.inr (by rw [h]; exact hk)
      · exact Or.inl (by rw [List.map_cons]; exact List.mem_cons_of_mem _ h)
    · simp only [goMapInsert] at h
      rw [if_neg hk, List.map_cons, List.mem_cons] at h
      rcases h with h | h
      · exact Or.inl (by rw [List.map_cons]; exact List.mem_cons.mpr (Or.inl h))
      · rcases ih h with h2 | h2
        · exact Or.inl (by rw [List.map_cons]; exact List.mem_cons_of_mem _ h2)
        · exact Or.inr h2

/-- Map assignment preserves distinctness of the keys. -/
theorem keysNodup_goMapInsert (m : List (String × String)) (k v : String)
    (hn : (m.map Prod.fst).Nodup) :
    ((goMapInsert m k v).map Prod.fst).Nodup := by
  induction m with
  | nil => simp [goMapInsert]
  | cons kv m ih =>
    rw [List.map_cons, List.nodup_cons] at hn
    by_cases hk : kv.1 = k
    · simp only [goMapInsert]
      rw [if_pos hk, List.map_cons, List.nodup_cons]
      exact ⟨hn.1, hn.2⟩
    · simp only [goMapInsert]
      rw [if_neg hk, List.map_cons, List.nodup_cons]
      refine ⟨fun hmem => ?_, ih hn.2⟩
      rcases mem_keys_goMapInsert m k v kv.1 hmem with h | h
      · exact hn.1 h
      · exact hk h

/-- The collected answer map always has pairwise-distinct keys. -/
theorem keysNodup_collectAnswersAux (stdin : Nat → Except Unit String)
    (qs : List String) (i : Nat) (m : List (String × String))
    (hn : (m.map Prod.fst).Nodup) :
    (((collectAnswersAux stdin qs i m).bindings).map Prod.fst).Nodup := by
  induction qs generalizing i m with
  | nil => simpa [collectAnswersAux] using hn
  | cons q qs ih =>
    cases hs : stdin i with
    | error u =>
      have hred : (collectAnswersAux stdin (q :: qs) i m).bindings =
          (collectAnswersAux stdin qs (i + 1) m).bindings := by
        simp only [collectAnswersAux, hs]
      rw [hred]
      exact ih (i + 1) m hn
    | ok a =>
      have hred : (collectAnswersAux stdin (q :: qs) i m).bindings =
          (collectAnswersAux stdin qs (i + 1) (goMapInsert m q (trimSpace a))).bindings := by
        simp only [collectAnswersAux, hs]
      rw [hred]
      exact ih (i + 1) _ (keysNodup_goMapInsert m q (trimSpace a) hn)

/-- C5 (confirmed).  The embedded pipeline is a pure function of its
inputs, so two runs with identical input, guidelines, operator answers
and remote responses coincide definitionally; the one source of runtime
nondeterminism in the Go program — the unspecified iteration order of
the answer map — is canonicalized by the sorted-key `%v` rendering used
when the stage-2 prompt is constructed, so the entire observable run
result (stdout bytes, file writes, stage-2 requests and outcome) is
byte-identical under any two presentation orders of the map. -/
theorem C5_deterministic_output (w : World) (promptInput outputPath : String)
    (verbose : Bool)
    (o₁ o₂ : List (String × String) → List (String × String))
    (h₁ : ∀ m, (o₁ m).Perm m) (h₂ : ∀ m, (o₂ m).Perm m) :
    mainRun w promptInput outputPath verbose o₁ =
      mainRun w promptInput outputPath verbose o₂ := by
  have hAfter : ∀ outAcc g up res,
      mainAfterAnalyze w outputPath verbose o₁ outAcc g up res =
        mainAfterAnalyze w outputPath verbose o₂ outAcc g up res := by
    intro outAcc g up res
    have hb : (((collectAnswers w.stdin res.ClarifyingQuestions).bindings).map
        Prod.fst).Nodup :=
      keysNodup_collectAnswersAux w.stdin res.ClarifyingQuestions 0 [] (by simp)
    have hkey : goFmtMap (o₁ (collectAnswers w.stdin res.ClarifyingQuestions).bindings) =
        goFmtMap (o₂ (collectAnswers w.stdin res.ClarifyingQuestions).bindings) :=
      (goFmtMap_perm _ _ (h₁ _) hb).trans (goFmtMap_perm _ _ (h₂ _) hb).symm
    unfold mainAfterAnalyze
    simp only [RefinePrompt]
    rw [hkey]
  unfold mainRun
  by_cases hpi : promptInput = ""
  · simp [hpi]
  · simp only [hpi, if_neg, not_false_iff]
    cases LoadGuidelines w.gfs "guidelines.json" with
    | error e => rfl
    | ok g =>
      cases ReadInput w.fs promptInput verbose with
      | error e => rfl
      | ok up =>
        by_cases hk : w.apiKey = ""
        · simp [hk]
        · simp only [hk, if_neg, not_false_iff]
          by_cases hc : w.clientInitOk = false
          · simp [hc]
          · simp only [hc, if_neg, not_false_iff]
            cases AnalyzePrompt w.analyzeGen g.Introduction
                (summarizeTechniques g.Techniques) up with
            | error e => rfl
            | ok res => exact hAfter _ _ _ _

/-- World for the C5 witness: two clarifying questions, answers from the
channel, and a stage-2 service echoing its request prompt so the output
depends on the rendered answer map. -/
def c5world : World :=
  ⟨fun p =>
    if p = "guidelines.json" then
      some (.value (.obj
        [("introduction", .str "I"),
         ("techniques", .arr [.obj
           [("name", .str "persona_pattern"),
            ("summarized", .str "s"), ("complete", .str "c")]])]))
    else none,
   fun _ => none,
   "key", true,
   fun i => .ok ("answer " ++ toString i ++ "\n"),
   fun _ _ _ => .ok (.value (.obj
     [("ChoseTechnique", .str "persona_pattern"),
      ("ClarifyingQuestions", .arr [.str "q-b", .str "q-a"])])),
   fun _ _ p => .ok p⟩

/-- Witness for C5: the identity presentation and the reversed
presentation of the two-entry answer map give the same run result. -/
theorem C5_witness :
    mainRun c5world "Explain gravity" "" false id =
      mainRun c5world "Explain gravity" "" false List.reverse :=
  C5_deterministic_output c5world "Explain gravity" "" false id List.reverse
    (fun m => List.Perm.refl m) (fun m => List.reverse_perm m)
